import Mathlib

/-!
# Exercise programs m000, m004, m006, m009

A shallow embedding of the four C exercise programs and the properties that
their specification states about them.

Conventions of the embedding.

* A C string (`char *` pointing at a NUL-terminated buffer) is the list of the
  characters that precede the terminating NUL.
* `int` values are `Int`; none of the embedded function bodies performs
  arithmetic, so no wrap-around occurs in the code itself.
* A function that writes through a pointer parameter is embedded as a function
  from the initial contents of the pointed-to array to its final contents.
-/

/-- A C string: the characters before the terminating NUL. -/
abbrev CString := List Char

/-! ## m004.c : binary to decimal -/

namespace m004

/-- `int decimal (char *b)` of m004.c: the body is the single statement
`return 0;`. -/
def decimal (_b : CString) : Int := 0

/-- The preprocessor constant `USAGE` of m004.c. -/
def USAGE : String := "m004 <string>\n"

/-- What a run of `main` leaves behind: the text written to standard output,
the exit status of the process, and the arguments of the calls to `decimal`
that were made, in order. -/
structure Run where
  stdout : String
  exitCode : Int
  decimalCalls : List CString
  deriving DecidableEq, Repr

/-- `int main (int argc, char **argv)` of m004.c. The argument vector is the
list `argv`, and `argc` is its length. When `argc < 2` the usage text is
printed and `exit(1)` ends the process; otherwise `decimal (argv[1])` is
called, printed with `"%d\n"`, and `main` returns 0. -/
def main (argv : List CString) : Run :=
  let argc : Int := argv.length
  if argc < 2 then
    { stdout := USAGE, exitCode := 1, decimalCalls := [] }
  else
    let arg1 : CString := argv.getD 1 []
    let n : Int := decimal arg1
    { stdout := toString n ++ "\n", exitCode := 0, decimalCalls := [arg1] }

/-- The value the specification assigns to a binary string, continuing from
an accumulated `value`: for a character that is `0` or `1` the value becomes
`value * 2 + digit`, and the scan stops at the first character that is
neither. This definition follows the wording of the specification, not the
code. -/
def specScanFrom (value : Int) : CString → Int
  | [] => value
  | ch :: rest =>
    if ch = '0' then specScanFrom (value * 2 + 0) rest
    else if ch = '1' then specScanFrom (value * 2 + 1) rest
    else value

/-- The specified result of `decimal`: the left-to-right scan started at 0. -/
def specDecimal (b : CString) : Int := specScanFrom 0 b

end m004

/-! ## m006.c : cross product -/

namespace m006

/-- An `int [3]` array. -/
structure Vec3 where
  e0 : Int
  e1 : Int
  e2 : Int
  deriving DecidableEq, Repr

/-- `void crossprod (int a[3], int b[3], int c[3])` of m006.c. The body is
empty, so nothing is stored through `c`: the final contents of `c` are its
initial contents. -/
def crossprod (_a _b c : Vec3) : Vec3 := c

/-- The cross product as the specification writes it:
`c0 = a1*b2 - a2*b1`, `c1 = a2*b0 - a0*b2`, `c2 = a0*b1 - a1*b0`. This
definition follows the wording of the specification, not the code. -/
def specCross (a b : Vec3) : Vec3 :=
  { e0 := a.e1 * b.e2 - a.e2 * b.e1
    e1 := a.e2 * b.e0 - a.e0 * b.e2
    e2 := a.e0 * b.e1 - a.e1 * b.e0 }

end m006

/-! ## m009.c : sort vector -/

namespace m009

/-- The preprocessor constant `MAX` of m009.c. -/
def MAX : Int := 100

/-- `void sort (int* vector, int n)` of m009.c. The body is empty, so the
array is left as it was: the result is the final contents of `vector`. -/
def sort (vector : List Int) (_n : Int) : List Int := vector

/-- The first `n` cells of `v` are in non-decreasing order:
`v[i] <= v[i+1]` for all `0 <= i < n-1`. -/
def nonDecreasing (v : List Int) (n : Int) : Prop :=
  ∀ i < n.toNat - 1, v.getD i 0 ≤ v.getD (i + 1) 0

instance (v : List Int) (n : Int) : Decidable (nonDecreasing v n) := by
  unfold nonDecreasing
  infer_instance

end m009

/-! ## m000.c : Pythagorean name number -/

namespace m000

/-- `int pitagorean (char *s)` of m000.c: the body is the single statement
`return 0;`. -/
def pitagorean (_s : CString) : Int := 0

/-- The digit that the Pythagorean system assigns to a character, letters
taken case-insensitively (A,J,S=1; B,K,T=2; C,L,U=3; D,M,V=4; E,N,W=5;
F,O,X=6; G,P,Y=7; H,Q,Z=8; I,R=9) and every other character counting 0. This
definition follows the wording of the specification, not the code. -/
def specDigit (ch : Char) : Int :=
  let u := ch.toUpper
  if u ∈ ['A', 'J', 'S'] then 1
  else if u ∈ ['B', 'K', 'T'] then 2
  else if u ∈ ['C', 'L', 'U'] then 3
  else if u ∈ ['D', 'M', 'V'] then 4
  else if u ∈ ['E', 'N', 'W'] then 5
  else if u ∈ ['F', 'O', 'X'] then 6
  else if u ∈ ['G', 'P', 'Y'] then 7
  else if u ∈ ['H', 'Q', 'Z'] then 8
  else if u ∈ ['I', 'R'] then 9
  else 0

/-- The Pythagorean name number as the specification describes it: the sum
of the digits of the characters of the name. -/
def specNameNumber (s : CString) : Int := (s.map specDigit).sum

end m000

/-! ## Properties of m004.c -/

namespace m004

/-- C1 (code evaluated at the documented examples): on the strings `0011`,
`1` and `110x001` the specified left-to-right scan yields 3, 1 and 6, while
`decimal` as written returns 0 on each of them. -/
theorem decimal_returns_zero_on_documented_examples :
    specDecimal ['0', '0', '1', '1'] = 3 ∧ decimal ['0', '0', '1', '1'] = 0 ∧
    specDecimal ['1'] = 1 ∧ decimal ['1'] = 0 ∧
    specDecimal ['1', '1', '0', 'x', '0', '0', '1'] = 6 ∧
    decimal ['1', '1', '0', 'x', '0', '0', '1'] = 0 ∧
    decimal ['0', '0', '1', '1'] ≠ specDecimal ['0', '0', '1', '1'] := by
  decide

/-- C6: for a string that is empty, or whose first character is neither `0`
nor `1`, `decimal` returns 0. -/
theorem decimal_zero_of_no_leading_digit (b : CString)
    (h : b = [] ∨ ∃ ch rest, b = ch :: rest ∧ ch ≠ '0' ∧ ch ≠ '1') :
    decimal b = 0 := by
  rcases h with h | ⟨ch, rest, h, -, -⟩ <;> subst h <;> rfl

/-- C6 at the concrete string `x1` (first character not a digit). -/
theorem decimal_zero_of_no_leading_digit_witness :
    ((['x', '1'] : CString) = [] ∨
        ∃ ch rest, (['x', '1'] : CString) = ch :: rest ∧ ch ≠ '0' ∧ ch ≠ '1') ∧
      decimal ['x', '1'] = 0 :=
  have h : (['x', '1'] : CString) = [] ∨
      ∃ ch rest, (['x', '1'] : CString) = ch :: rest ∧ ch ≠ '0' ∧ ch ≠ '1' :=
    Or.inr ⟨'x', ['1'], rfl, by decide, by decide⟩
  ⟨h, decimal_zero_of_no_leading_digit ['x', '1'] h⟩

/-- C7: the driver of m004.c fails exactly when the argument is missing.
With `argc < 2` it prints the usage text to standard output, exits with
status 1 and makes no call to `decimal`; with `argc >= 2` it calls `decimal`
once, on `argv[1]`, prints the returned number in decimal followed by a
newline, and exits with status 0. -/
theorem main_usage_iff_argument_missing (argv : List CString) :
    (((argv.length : Int) < 2 →
        main argv = { stdout := "m004 <string>\n", exitCode := 1, decimalCalls := [] }) ∧
      ((argv.length : Int) ≥ 2 →
        ∃ arg1, argv[1]? = some arg1 ∧
          main argv =
            { stdout := toString (decimal arg1) ++ "\n", exitCode := 0,
              decimalCalls := [arg1] })) ∧
    ((main argv).exitCode ≠ 0 ↔ (argv.length : Int) < 2) := by
  match argv with
  | [] => simp [main, USAGE]
  | [_] => simp [main, USAGE]
  | prog :: arg1 :: rest =>
    have hlen : ¬ (((prog :: arg1 :: rest : List CString).length : Int) < 2) := by
      simp only [List.length_cons]
      omega
    refine ⟨⟨fun h => absurd h hlen, fun _ => ⟨arg1, by simp, ?_⟩⟩, ?_⟩
    · simp only [main, if_neg hlen]
      rfl
    · simp only [main, if_neg hlen]
      simp only [ne_eq, not_true_eq_false, false_iff]
      exact hlen

/-- C7 at the argument vectors `m004` (argument missing) and `m004 0011`. -/
theorem main_usage_iff_argument_missing_witness :
    main [['m', '0', '0', '4']] =
        { stdout := "m004 <string>\n", exitCode := 1, decimalCalls := [] } ∧
      main [['m', '0', '0', '4'], ['0', '0', '1', '1']] =
        { stdout := "0\n", exitCode := 0, decimalCalls := [['0', '0', '1', '1']] } := by
  constructor
  · exact (main_usage_iff_argument_missing [['m', '0', '0', '4']]).1.1 (by decide)
  · obtain ⟨arg1, h1, h2⟩ :=
      (main_usage_iff_argument_missing
        [['m', '0', '0', '4'], ['0', '0', '1', '1']]).1.2 (by decide)
    rw [h2]
    cases h1
    rfl

end m004

/-! ## Properties of m006.c -/

namespace m006

/-- C2 (code evaluated at the documented example): for `a = (1,2,3)` and
`b = (4,5,6)` the specified cross product is `(-3,6,-3)`, while `crossprod`
as written leaves the output vector at its initial contents, here `(0,0,0)`. -/
theorem crossprod_leaves_output_on_documented_example :
    specCross ⟨1, 2, 3⟩ ⟨4, 5, 6⟩ = ⟨-3, 6, -3⟩ ∧
    crossprod ⟨1, 2, 3⟩ ⟨4, 5, 6⟩ ⟨0, 0, 0⟩ = ⟨0, 0, 0⟩ ∧
    crossprod ⟨1, 2, 3⟩ ⟨4, 5, 6⟩ ⟨0, 0, 0⟩ ≠ specCross ⟨1, 2, 3⟩ ⟨4, 5, 6⟩ := by
  decide

/-- C8 (code evaluated at a concrete input): with the output vector holding
`(1,0,0)` beforehand, `crossprod` as written gives the same first component,
1, for `a, b` and for `b, a`, so the two results are not opposite; and a
vector crossed with itself leaves `(1,0,0)`, not `(0,0,0)`. The specified
cross product is anticommutative at the same vectors. -/
theorem crossprod_not_anticommutative_at_example :
    (crossprod ⟨1, 2, 3⟩ ⟨4, 5, 6⟩ ⟨1, 0, 0⟩).e0 = 1 ∧
    (crossprod ⟨4, 5, 6⟩ ⟨1, 2, 3⟩ ⟨1, 0, 0⟩).e0 = 1 ∧
    (crossprod ⟨1, 2, 3⟩ ⟨4, 5, 6⟩ ⟨1, 0, 0⟩).e0 ≠
      -(crossprod ⟨4, 5, 6⟩ ⟨1, 2, 3⟩ ⟨1, 0, 0⟩).e0 ∧
    crossprod ⟨1, 2, 3⟩ ⟨1, 2, 3⟩ ⟨1, 0, 0⟩ ≠ ⟨0, 0, 0⟩ ∧
    (specCross ⟨1, 2, 3⟩ ⟨4, 5, 6⟩).e0 = -(specCross ⟨4, 5, 6⟩ ⟨1, 2, 3⟩).e0 ∧
    specCross ⟨1, 2, 3⟩ ⟨1, 2, 3⟩ = ⟨0, 0, 0⟩ := by
  decide

end m006

/-! ## Properties of m009.c -/

namespace m009

/-- C3 (code evaluated at the documented example): `sort` as written leaves
`[3,2,5,4,2]` with `n = 5` as it is, which is not in non-decreasing order
and is not the documented output `[2,2,3,4,5]`. -/
theorem sort_leaves_documented_example_unsorted :
    sort [3, 2, 5, 4, 2] 5 = [3, 2, 5, 4, 2] ∧
    ¬ nonDecreasing (sort [3, 2, 5, 4, 2] 5) 5 ∧
    sort [3, 2, 5, 4, 2] 5 ≠ [2, 2, 3, 4, 5] ∧
    nonDecreasing [2, 2, 3, 4, 5] 5 := by
  decide

/-- C4: for `0 <= n <= 100` and an array of at least `n` integers, the first
`n` elements after `sort (vector, n)` are a permutation of the first `n`
elements before the call. -/
theorem sort_prefix_perm (vector : List Int) (n : Int)
    (_h0 : 0 ≤ n) (_hmax : n ≤ MAX) (_hlen : n.toNat ≤ vector.length) :
    List.Perm ((sort vector n).take n.toNat) (vector.take n.toNat) := by
  unfold sort
  exact List.Perm.refl _

/-- C4 at the array `[3,2,5,4,2]` with `n = 5`. -/
theorem sort_prefix_perm_witness :
    List.Perm ((sort [3, 2, 5, 4, 2] 5).take (5 : Int).toNat)
      (([3, 2, 5, 4, 2] : List Int).take (5 : Int).toNat) :=
  sort_prefix_perm [3, 2, 5, 4, 2] 5 (by decide) (by decide) (by decide)

/-- C9: for `0 <= n <= 100` and an array whose first `n` elements are already
in non-decreasing order, `sort (vector, n)` leaves the array unchanged;
moreover `sort` with `n = 0` changes no array, and sorting any array twice
gives the same array as sorting it once. -/
theorem sort_sorted_unchanged (vector : List Int) (n : Int)
    (_h0 : 0 ≤ n) (_hmax : n ≤ MAX) (_hlen : n.toNat ≤ vector.length)
    (_hsorted : nonDecreasing vector n) :
    sort vector n = vector ∧
    (∀ w : List Int, sort w 0 = w) ∧
    (∀ (w : List Int) (m : Int), sort (sort w m) m = sort w m) := by
  exact ⟨rfl, fun _ => rfl, fun _ _ => rfl⟩

/-- C9 at the sorted array `[2,2,3,4,5]` with `n = 5`. -/
theorem sort_sorted_unchanged_witness :
    nonDecreasing [2, 2, 3, 4, 5] 5 ∧ sort [2, 2, 3, 4, 5] 5 = [2, 2, 3, 4, 5] :=
  ⟨by decide,
    (sort_sorted_unchanged [2, 2, 3, 4, 5] 5 (by decide) (by decide) (by decide)
      (by decide)).1⟩

end m009

/-! ## Properties of m000.c -/

namespace m000

/-- C5 (code evaluated at the documented example): for the name `John Doe`
read with its trailing newline the Pythagorean name number is 35, while
`pitagorean` as written returns 0. -/
theorem pitagorean_returns_zero_on_documented_example :
    specNameNumber ['J', 'o', 'h', 'n', ' ', 'D', 'o', 'e', '\n'] = 35 ∧
    pitagorean ['J', 'o', 'h', 'n', ' ', 'D', 'o', 'e', '\n'] = 0 ∧
    pitagorean ['J', 'o', 'h', 'n', ' ', 'D', 'o', 'e', '\n'] ≠
      specNameNumber ['J', 'o', 'h', 'n', ' ', 'D', 'o', 'e', '\n'] := by
  decide

/-- C10: for a string with no alphabetic character `pitagorean` returns 0,
and for every string the result of `pitagorean` is at least 0. -/
theorem pitagorean_zero_of_no_letter (s : CString)
    (_h : ∀ ch ∈ s, ch.isAlpha = false) :
    pitagorean s = 0 ∧ ∀ t : CString, 0 ≤ pitagorean t := by
  exact ⟨rfl, fun _ => le_refl _⟩

/-- C10 at the string made of a space, the digits `1` `2`, a full stop and a
newline. -/
theorem pitagorean_zero_of_no_letter_witness :
    (∀ ch ∈ ([' ', '1', '2', '.', '\n'] : CString), ch.isAlpha = false) ∧
      pitagorean [' ', '1', '2', '.', '\n'] = 0 :=
  ⟨by decide, (pitagorean_zero_of_no_letter [' ', '1', '2', '.', '\n'] (by decide)).1⟩

end m000
